import Mathlib

/-!
Verification development for the CodeCompass indexing and retrieval pipeline.

The Python sources are shallowly embedded: byte strings become `List Nat`
(each entry one byte value), the concrete syntax tree produced by the
external structural parser becomes an explicit `Node` value handed to the
chunker, fallible decoding becomes `Except`, and the persistent store
becomes an explicit state record.  All definitions are executable.
-/

namespace CodeCompass

/-! ## UTF-8 decoding of byte strings

Models Python `bytes.decode("utf-8")`: returns `none` exactly when the
byte string is not valid UTF-8 (stray or missing continuation bytes,
overlong encodings, surrogates, out-of-range code points). -/

/-- A byte in the range 0x80–0xBF, i.e. a UTF-8 continuation byte. -/
def isContinuation (b : Nat) : Bool := 128 ≤ b && b < 192

/-- Decode a UTF-8 byte string into characters; `none` on invalid input. -/
def utf8Chars : List Nat → Option (List Char)
  | [] => some []
  | b :: bs =>
    if b < 128 then
      (utf8Chars bs).map (fun cs => Char.ofNat b :: cs)
    else if b < 192 then none
    else if b < 224 then
      match bs with
      | b1 :: bs1 =>
        if isContinuation b1 then
          let cp := (b - 192) * 64 + (b1 - 128)
          if cp < 128 then none
          else (utf8Chars bs1).map (fun cs => Char.ofNat cp :: cs)
        else none
      | [] => none
    else if b < 240 then
      match bs with
      | b1 :: b2 :: bs2 =>
        if isContinuation b1 && isContinuation b2 then
          let cp := (b - 224) * 4096 + (b1 - 128) * 64 + (b2 - 128)
          if cp < 2048 then none
          else if 55296 ≤ cp && cp < 57344 then none
          else (utf8Chars bs2).map (fun cs => Char.ofNat cp :: cs)
        else none
      | _ => none
    else if b < 245 then
      match bs with
      | b1 :: b2 :: b3 :: bs3 =>
        if isContinuation b1 && isContinuation b2 && isContinuation b3 then
          let cp := (b - 240) * 262144 + (b1 - 128) * 4096 + (b2 - 128) * 64 + (b3 - 128)
          if cp < 65536 then none
          else if 1114111 < cp then none
          else (utf8Chars bs3).map (fun cs => Char.ofNat cp :: cs)
        else none
      | _ => none
    else none

/-- Decode a UTF-8 byte string into a `String`; `none` on invalid input. -/
def utf8DecodeString (bs : List Nat) : Option String :=
  (utf8Chars bs).map String.mk

/-- Python `bytes.decode("utf-8")` as used inside the chunker: an invalid
byte string raises `UnicodeDecodeError`, modelled as `Except.error ()`. -/
def decodeBytes (bs : List Nat) : Except Unit String :=
  match utf8DecodeString bs with
  | some s => .ok s
  | none => .error ()

/-- Python byte-string slicing `source[s:e]`. -/
def byteSlice (src : List Nat) (s e : Nat) : List Nat :=
  (src.drop s).take (e - s)

/-! ## Python string helpers -/

/-- Python `str.strip(chars)`: remove the characters of the set `cs` from
both ends of the string. -/
def stripChars (cs : List Char) (s : List Char) : List Char :=
  ((s.dropWhile (fun c => cs.contains c)).reverse.dropWhile
    (fun c => cs.contains c)).reverse

/-- The whitespace characters removed by a bare Python `str.strip()`. -/
def pyWhitespace : List Char := [' ', '\t', '\n', '\r', '\x0B', '\x0C']

/-- The docstring clean-up applied by the chunker, from the source line
`docstring.strip(three-double-quotes).strip(three-single-quotes).strip()`:
the character set of the first strip is just the double-quote character,
the second just the single-quote character, and the last is whitespace. -/
def pyCleanDocstring (s : String) : String :=
  String.mk (stripChars pyWhitespace
    (stripChars ['\''] (stripChars ['"'] s.toList)))

/-! ## The concrete syntax tree

The structural parser (tree-sitter) is an external black box that turns the
byte string of a file into a concrete syntax tree; the chunker only reads
node types, child lists, byte spans and row spans, so a tree is embedded as
exactly those fields and handed to the chunker as an input. -/

/-- A concrete-syntax-tree node: type name, byte span `[sb, eb)`, row span
(0-indexed start and end rows), and the list of child nodes. -/
inductive Node where
  | mk (ty : String) (sb eb sr er : Nat) (children : List Node)

/-- Node type name (`node.type` in the source). -/
def Node.ty : Node → String
  | .mk t _ _ _ _ _ => t

/-- Start byte offset (`node.start_byte`). -/
def Node.sb : Node → Nat
  | .mk _ s _ _ _ _ => s

/-- End byte offset (`node.end_byte`). -/
def Node.eb : Node → Nat
  | .mk _ _ e _ _ _ => e

/-- Start row (`node.start_point[0]`). -/
def Node.sr : Node → Nat
  | .mk _ _ _ r _ _ => r

/-- End row (`node.end_point[0]`). -/
def Node.er : Node → Nat
  | .mk _ _ _ _ r _ => r

/-- Child nodes (`node.children`). -/
def Node.children : Node → List Node
  | .mk _ _ _ _ _ cs => cs

/-! ## The chunker data model -/

/-- `CodeChunk` from `codecompass/indexing/chunker.py`. -/
structure CodeChunk where
  id : String
  file_path : String
  name : String
  chunk_type : String
  code : String
  start_line : Nat
  end_line : Nat
  docstring : Option String
  parent_class : Option String
  imports : Option (List String) := none
deriving Repr, DecidableEq

/-! ## Chunker helpers -/

/-- `PythonChunker._get_child_by_type`: first child with the given type. -/
def getChildByType (cs : List Node) (typeName : String) : Option Node :=
  cs.find? (fun c => c.ty == typeName)

/-- `PythonChunker._get_name`: decode the text of the first `identifier`
child; `"<unknown>"` when there is none.  Decoding the identifier text can
raise `UnicodeDecodeError`, hence the `Except`. -/
def getName (src : List Nat) (n : Node) : Except Unit String :=
  match getChildByType n.children "identifier" with
  | some c => decodeBytes (byteSlice src c.sb c.eb)
  | none => .ok "<unknown>"

/-- `PythonChunker._extract_docstring`: look up the first `block` child of
the given node, take its first statement, and when that statement is an
expression statement whose first child is a string literal, decode its text
and clean it up with the strip chain; otherwise no docstring. -/
def extractDocstring (n : Node) (src : List Nat) : Except Unit (Option String) :=
  match getChildByType n.children "block" with
  | none => .ok none
  | some body =>
    match body.children with
    | [] => .ok none
    | firstStmt :: _ =>
      if firstStmt.ty = "expression_statement" then
        match firstStmt.children with
        | [] => .ok none
        | expr :: _ =>
          if expr.ty = "string" then do
            let d ← decodeBytes (byteSlice src expr.sb expr.eb)
            .ok (some (pyCleanDocstring d))
          else .ok none
      else .ok none

/-- `PythonChunker._extract_imports`: decode the text of every top-level
statement whose node is an import statement, in source order. -/
def extractImports (src : List Nat) : List Node → Except Unit (List String)
  | [] => .ok []
  | c :: rest =>
    if c.ty = "import_statement" ∨ c.ty = "import_from_statement" then do
      let s ← decodeBytes (byteSlice src c.sb c.eb)
      let tl ← extractImports src rest
      .ok (s :: tl)
    else extractImports src rest

/-- `PythonChunker._make_chunk`: build a `CodeChunk` from a definition node.
`nodeForCode` is the optional outer node (`node_for_code` in the source)
whose span supplies the code text, the line range and the docstring lookup;
Python truthiness of `parent_class` makes a `some ""` behave like `none`. -/
def makeChunk (node : Node) (src : List Nat) (filePath chunkType : String)
    (parentClass : Option String) (nodeForCode : Option Node) :
    Except Unit CodeChunk := do
  let name ← getName src node
  let codeNode := nodeForCode.getD node
  let code ← decodeBytes (byteSlice src codeNode.sb codeNode.eb)
  let docstring ← extractDocstring codeNode src
  let pcTruthy : Bool := match parentClass with
    | some p => p != ""
    | none => false
  if pcTruthy then
    let p := parentClass.getD ""
    .ok { id := filePath ++ "::" ++ p ++ "." ++ name, file_path := filePath,
          name := name, chunk_type := "method", code := code,
          start_line := codeNode.sr + 1, end_line := codeNode.er + 1,
          docstring := docstring, parent_class := parentClass }
  else
    .ok { id := filePath ++ "::" ++ name, file_path := filePath,
          name := name, chunk_type := chunkType, code := code,
          start_line := codeNode.sr + 1, end_line := codeNode.er + 1,
          docstring := docstring, parent_class := parentClass }

/-- The children of a node are structurally smaller than the node. -/
theorem Node.sizeOf_children_lt (n : Node) : sizeOf n.children < sizeOf n := by
  cases n with
  | mk t sb eb sr er cs => simp [Node.children]; try omega

/-- A node found by `getChildByType` is a member of the searched list. -/
theorem getChildByType_mem {cs : List Node} {typeName : String} {b : Node}
    (h : getChildByType cs typeName = some b) : b ∈ cs :=
  List.mem_of_find?_eq_some h

mutual

/-- `PythonChunker._extract_chunks`: the loop over the children of one node.
Each child is dispatched on its node type (decorated definition, function
definition, class definition, anything else) and the loop continues with
the remaining children; the Python generator is modelled as the list of all
yielded chunks, with a decode failure anywhere turning into the error. -/
def extractChildren (src : List Nat) (filePath : String) (parentClass : Option String) :
    List Node → Except Unit (List CodeChunk)
  | [] => .ok []
  | child :: rest => do
    let here ←
      if child.ty = "decorated_definition" then
        decoratedSub src filePath parentClass child child.children
      else if child.ty = "function_definition" then do
        let c ← makeChunk child src filePath "function" parentClass none
        pure [c]
      else if child.ty = "class_definition" then do
        let className ← getName src child
        let c ← makeChunk child src filePath "class" none none
        let inner ←
          match h : getChildByType child.children "block" with
          | some classBody =>
            extractChildren src filePath (some className) classBody.children
          | none => pure []
        pure (c :: inner)
      else
        extractChildren src filePath parentClass child.children
    let tl ← extractChildren src filePath parentClass rest
    pure (here ++ tl)
termination_by l => sizeOf l
decreasing_by
all_goals
  first
  | (simp only [List.cons.sizeOf_spec]; omega)
  | (simp only [List.cons.sizeOf_spec]
     have h1 := Node.sizeOf_children_lt expr
     omega)
  | (simp only [List.cons.sizeOf_spec]
     have h1 := Node.sizeOf_children_lt expr
     have h2 := Node.sizeOf_children_lt classBody
     have h3 := List.sizeOf_lt_of_mem (getChildByType_mem h)
     omega)

/-- The inner loop of `_extract_chunks` over the children of a
`decorated_definition` node: definitions found inside emit a chunk whose
code span is the outer decorated node, decorator children emit nothing. -/
def decoratedSub (src : List Nat) (filePath : String) (parentClass : Option String)
    (outer : Node) : List Node → Except Unit (List CodeChunk)
  | [] => .ok []
  | sub :: rest => do
    let here ←
      if sub.ty = "function_definition" then do
        let c ← makeChunk sub src filePath "function" parentClass (some outer)
        pure [c]
      else if sub.ty = "class_definition" then do
        let className ← getName src sub
        let c ← makeChunk sub src filePath "class" none (some outer)
        let inner ←
          match h : getChildByType sub.children "block" with
          | some classBody =>
            extractChildren src filePath (some className) classBody.children
          | none => pure []
        pure (c :: inner)
      else pure []
    let tl ← decoratedSub src filePath parentClass outer rest
    pure (here ++ tl)
termination_by l => sizeOf l
decreasing_by
all_goals
  first
  | (simp only [List.cons.sizeOf_spec]; omega)
  | (simp only [List.cons.sizeOf_spec]
     have h1 := Node.sizeOf_children_lt expr
     omega)
  | (simp only [List.cons.sizeOf_spec]
     have h1 := Node.sizeOf_children_lt expr
     have h2 := Node.sizeOf_children_lt classBody
     have h3 := List.sizeOf_lt_of_mem (getChildByType_mem h)
     omega)

end

/-- `PythonChunker.chunk_file`: the file is read as raw bytes (the
`except UnicodeDecodeError` handler in the source guards only this read),
the external parser turns the bytes into the tree, the file-level imports
are extracted, and every chunk of the pre-order traversal is yielded with
the identical import list attached. -/
def chunkFile (relativePath : String) (src : List Nat) (tree : Node) :
    Except Unit (List CodeChunk) := do
  let imports ← extractImports src tree.children
  let chunks ← extractChildren src relativePath none tree.children
  .ok (chunks.map (fun c => { c with imports := some imports }))

/-! ## Repository traversal (`chunk_repository`) -/

/-- One Python file of a repository as the chunker sees it: the full path
string that the ignore filter inspects (`str(f)` in the source), the
repo-relative path attached to chunks, the raw bytes, and the tree the
external parser produces from those bytes. -/
structure RepoFile where
  path : String
  relPath : String
  source : List Nat
  tree : Node

/-- The `ignore_patterns` list of `chunk_repository`, verbatim. -/
def ignorePatterns : List String :=
  ["venv", ".venv", "node_modules", "__pycache__",
   ".git", "build", "dist", ".eggs", "egg-info", "scratch", "scripts", "evaluation"]

/-- Python substring membership `pattern in string` on character lists. -/
def isSubstring (p : List Char) : List Char → Bool
  | [] => p.isEmpty
  | c :: rest => p.isPrefixOf (c :: rest) || isSubstring p rest

/-- The filter condition of `chunk_repository`:
`any(pattern in str(f) for pattern in ignore_patterns)`. -/
def ignoredPath (path : String) : Bool :=
  ignorePatterns.any (fun pat => isSubstring pat.toList path.toList)

/-- The `yield from chunker.chunk_file(...)` loop over the filtered files. -/
def chunkFiles : List RepoFile → Except Unit (List CodeChunk)
  | [] => .ok []
  | f :: rest => do
    let cs ← chunkFile f.relPath f.source f.tree
    let tl ← chunkFiles rest
    .ok (cs ++ tl)

/-- `chunk_repository`: keep the `.py` files whose path string contains none
of the ignore patterns, then chunk each kept file in order. -/
def chunkRepository (files : List RepoFile) : Except Unit (List CodeChunk) :=
  chunkFiles (files.filter (fun f => !ignoredPath f.path))

/-! ## The index store (`codecompass/indexing/store.py`)

The vector-database engine is external; the store is embedded as an
explicit state record: `table` models the presence and contents of the
per-repository table, `metadata` models the `metadata.json` record.
Embedding vectors are rational-valued lists and the embedding service is a
function parameter. -/

/-- The `StoredChunk` schema of the LanceDB table. -/
structure StoredRecord where
  id : String
  file_path : String
  name : String
  chunk_type : String
  code : String
  start_line : Nat
  end_line : Nat
  docstring : String
  parent_class : String
  search_text : String
  vector : List ℚ
deriving Repr, DecidableEq

/-- The persisted `metadata.json` record. -/
structure IndexMetadata where
  repo_path : String
  indexed_at : String
  chunk_count : Nat
  imports : List String
deriving Repr, DecidableEq

/-- The externally persisted state of one repository's index. -/
structure StoreState where
  table : Option (List StoredRecord)
  metadata : Option IndexMetadata
deriving Repr, DecidableEq

/-- `CodeStore.is_indexed`: true iff the table exists. -/
def is_indexed (s : StoreState) : Bool := s.table.isSome

/-- The result of `CodeStore.get_stats`: either the not-indexed status or
the metadata record. -/
inductive Stats where
  | not_indexed
  | indexed (m : IndexMetadata)
deriving Repr, DecidableEq

/-- `CodeStore.get_stats`: read `metadata.json` if it exists, otherwise
report the not-indexed status. -/
def get_stats (s : StoreState) : Stats :=
  match s.metadata with
  | none => .not_indexed
  | some m => .indexed m

/-- `CodeStore._create_search_text`, including the Python truthiness tests
on `parent_class`, `docstring` and `imports`. -/
def create_search_text (c : CodeChunk) : String :=
  let parts := ["Name: " ++ c.name, "Type: " ++ c.chunk_type]
  let parts := match c.parent_class with
    | some p => if p != "" then parts ++ ["Class: " ++ p] else parts
    | none => parts
  let parts := match c.docstring with
    | some d => if d != "" then parts ++ ["Description: " ++ d] else parts
    | none => parts
  let parts := match c.imports with
    | some l => if l != [] then parts ++ ["File imports: " ++ String.intercalate ", " l] else parts
    | none => parts
  String.intercalate "\n" (parts ++ ["Code:\n" ++ c.code])

/-- `CodeStore.wait_for_index`: `while True: check; if ready break; sleep(timeout)`.
The engine's readiness answer at the n-th poll is the black-box `ready n`;
the result is the total time slept before the loop exits, and `fuel` bounds
how many loop iterations we are willing to unfold — `none` means the loop
has not returned within `fuel` iterations. -/
def wait_for_index (ready : Nat → Bool) (timeout : ℚ) : Nat → Nat → Option ℚ
  | 0, _ => none
  | fuel + 1, i =>
    if ready i then some 0
    else (wait_for_index ready timeout fuel (i + 1)).map (fun t => t + timeout)

/-- Python `str.split()`: split on whitespace runs, dropping empty pieces. -/
def pySplitWhitespace (s : String) : List String :=
  (s.split (fun c => pyWhitespace.contains c)).filter (fun p => p ≠ "")

/-- The per-import module-name extraction inside `index_chunks`:
`"from a.b import c"` and `"import a.b, d"` both give `"a"`.  A string with
neither of the two prefixes leaves the loop variable `module` unassigned in
the source (the `add` still runs); this is the `none` case. -/
def moduleOf (imp : String) : Option String :=
  if "from ".isPrefixOf imp then
    some ((((pySplitWhitespace imp).getD 1 "").splitOn ".").headD "")
  else if "import ".isPrefixOf imp then
    some ((((((pySplitWhitespace imp).getD 1 "").splitOn ".").headD "").splitOn ",").headD "")
  else none

/-- Add to a set modelled as a duplicate-free list in insertion order. -/
def insertSet (l : List String) (x : String) : List String :=
  if x ∈ l then l else l ++ [x]

/-- The `all_imports` set accumulation of `index_chunks`: the second
component carries the last assigned `module` value, because the source adds
`module` to the set on every iteration even when neither branch of the
`if`/`elif` reassigned it. -/
def collectImportsLoop (acc : List String × Option String) :
    List String → List String × Option String
  | [] => acc
  | imp :: rest =>
    match moduleOf imp with
    | some m => collectImportsLoop (insertSet acc.1 m, some m) rest
    | none =>
      match acc.2 with
      | some m => collectImportsLoop (insertSet acc.1 m, some m) rest
      | none => collectImportsLoop acc rest

/-- All unique top-level module names across the chunks' imports, in the
order first seen (`if chunk.imports:` is a Python truthiness test). -/
def collectImports (chunks : List CodeChunk) : List String :=
  (chunks.foldl (fun acc c =>
    match c.imports with
    | some l => if l != [] then collectImportsLoop acc l else acc
    | none => acc) ([], none)).1

/-- The record built for one chunk inside `index_chunks` (`or ""` turns an
absent docstring or parent class into the empty string). -/
def mkStoredRecord (embed : String → List ℚ) (c : CodeChunk) : StoredRecord :=
  let st := create_search_text c
  { id := c.id, file_path := c.file_path, name := c.name,
    chunk_type := c.chunk_type, code := c.code,
    start_line := c.start_line, end_line := c.end_line,
    docstring := c.docstring.getD "", parent_class := c.parent_class.getD "",
    search_text := st, vector := embed st }

/-- `CodeStore.index_chunks`: an empty chunk list short-circuits to `0`
before anything is embedded, created or written; otherwise every chunk is
embedded, the table is created with overwrite semantics, the store waits
for the lexical index (diverging — `none` — if it never reports ready
within `fuel` polls), and finally the metadata record is written. -/
def index_chunks (s : StoreState) (repoPath : String) (chunks : List CodeChunk)
    (embed : String → List ℚ) (ready : Nat → Bool) (fuel : Nat) (now : String) :
    Option (Nat × StoreState) :=
  if chunks = [] then some (0, s)
  else
    let records := chunks.map (mkStoredRecord embed)
    match wait_for_index ready 5 fuel 0 with
    | none => none
    | some _ =>
      some (records.length,
        { table := some records,
          metadata := some { repo_path := repoPath, indexed_at := now,
                             chunk_count := records.length,
                             imports := collectImports chunks } })

/-- One raw result row returned by the engine's hybrid query
(`to_list` rows are dicts; `docstring` and `_relevance_score` are read with
defaulting `.get`, so they are optional here). -/
structure RawRow where
  id : String
  file_path : String
  name : String
  chunk_type : String
  code : String
  start_line : Nat
  end_line : Nat
  docstring : Option String
  relevance_score : Option ℚ
deriving Repr, DecidableEq

/-- `CodeStore.search`: no table means an empty result list; otherwise the
black-box engine produces the fused ranked rows. -/
def store_search (s : StoreState) (engine : String → Nat → List RawRow)
    (query : String) (limit : Nat) : List RawRow :=
  match s.table with
  | none => []
  | some _ => engine query limit

/-! ## Retrieval (`codecompass/retrieval/search.py` and `rag.py`) -/

/-- The `SearchResult` dataclass of `search.py`. -/
structure SearchResult where
  id : String
  file_path : String
  name : String
  chunk_type : String
  code : String
  start_line : Nat
  end_line : Nat
  docstring : String
  score : ℚ
deriving Repr, DecidableEq

/-- The row-to-result conversion inside `search_code`
(`r.get("docstring", "")` and `r.get("_relevance_score", 0.0)`). -/
def rowToResult (r : RawRow) : SearchResult :=
  { id := r.id, file_path := r.file_path, name := r.name,
    chunk_type := r.chunk_type, code := r.code,
    start_line := r.start_line, end_line := r.end_line,
    docstring := r.docstring.getD "", score := r.relevance_score.getD 0 }

/-- `search_code`: raise `ValueError` (the error case) when the repository
has no index, otherwise query the store and convert each row. -/
def search_code (store : StoreState) (engine : String → Nat → List RawRow)
    (repoPathStr query : String) (limit : Nat) :
    Except String (List SearchResult) :=
  if !is_indexed store then
    .error ("Repository not indexed. Run: codecompass index " ++ repoPathStr)
  else
    .ok ((store_search store engine query limit).map rowToResult)

/-- The fixed strategy set of `rag.py` and `cli.py`. -/
inductive Strategy where
  | hyde
  | baseline
  | queryExpansion
deriving Repr, DecidableEq

/-- The `SEARCH_STRATEGIES` dict of `rag.py` (also the `strategies` dict
built inside the CLI `search` command with the same three keys). -/
def SEARCH_STRATEGIES : List (Int × Strategy) :=
  [(0, .hyde), (1, .baseline), (2, .queryExpansion)]

/-- The strategy lookup of `answer_question`, line
`search_fn = SEARCH_STRATEGIES.get(search_type, hyde_search)`: a selector
outside the dict silently falls back to the HyDE strategy. -/
def ragSelectStrategy (searchType : Int) : Strategy :=
  (SEARCH_STRATEGIES.lookup searchType).getD .hyde

/-- The CLI `search` command's selector check:
`if search_type not in strategies: raise typer.Exit(1)` after printing the
invalid-search-type message; a known selector dispatches to the strategy. -/
def cliSelectStrategy (searchType : Int) : Except String Strategy :=
  match SEARCH_STRATEGIES.lookup searchType with
  | none => .error "Invalid search type"
  | some s => .ok s

/-- The context block built from the results inside `answer_question`. -/
def buildContext (results : List SearchResult) : String :=
  String.intercalate "\n"
    ((results.enum.map (fun p => (p.2, p.1 + 1))).map (fun p =>
      "\n### Result " ++ toString p.2 ++ ": " ++ p.1.name ++ " (" ++ p.1.chunk_type ++ ")\n" ++
      "**File:** " ++ p.1.file_path ++ " (lines " ++ toString p.1.start_line ++ "-" ++
      toString p.1.end_line ++ ")\n```python\n" ++ p.1.code ++ "\n```\n"))

/-- `answer_question` from `rag.py`.  The strategies and the generation
service only act through the black boxes `runSearch` (what the chosen
strategy's search returns) and `generate`; the function returns the string
the caller receives: the not-indexed message, the no-results message, or
the generated answer. -/
def answer_question (store : StoreState) (repoPathStr question : String)
    (numChunks : Nat) (searchType : Int)
    (runSearch : Strategy → String → Nat → List SearchResult)
    (generate : String → String → String) : String :=
  if !is_indexed store then
    "Repository not indexed. Please run: codecompass index " ++ repoPathStr
  else
    let fn := ragSelectStrategy searchType
    let results := runSearch fn question numChunks
    if results = [] then "No relevant code found for your question."
    else
      generate ("## Relevant Code Context\n" ++ buildContext results ++
        "\n\n## User Question\n" ++ question ++ "\n\n## Your Answer\n") "SYSTEM"

/-! ## Evaluation metrics (`evaluation/retrieval/metrics.py`)

Python floats on these small integer ratios are modelled as exact
rationals; Python `set(...)` becomes `List.dedup`. -/

/-- `recall_at_k`: fraction of the expected ids found in the top-k results,
`1.0` when nothing is expected. -/
def recall_at_k (retrieved expected : List String) (k : Nat) : ℚ :=
  if expected = [] then 1
  else
    let retrievedK := (retrieved.take k).dedup
    let expectedSet := expected.dedup
    ((retrievedK.filter (fun x => x ∈ expectedSet)).length : ℚ) / (expectedSet.length : ℚ)

/-- `precision_at_k`: fraction of the top-k results that are expected,
`0.0` when the top-k list is empty.  The hit count iterates over the list
slice, so duplicates in the top-k count with multiplicity. -/
def precision_at_k (retrieved expected : List String) (k : Nat) : ℚ :=
  let retrievedK := retrieved.take k
  if retrievedK = [] then 0
  else
    ((retrievedK.countP (fun r => r ∈ expected) : Nat) : ℚ) / (retrievedK.length : ℚ)

/-- `mrr`: reciprocal of the 1-based position of the first expected item in
the full retrieved list, `0.0` if none matches. -/
def mrr (retrieved expected : List String) : ℚ :=
  match retrieved.findIdx? (fun x => decide (x ∈ expected)) with
  | some i => 1 / ((i : ℚ) + 1)
  | none => 0

/-- `f1_at_k`: harmonic mean of precision and recall, `0.0` when both are
zero. -/
def f1_at_k (retrieved expected : List String) (k : Nat) : ℚ :=
  let p := precision_at_k retrieved expected k
  let r := recall_at_k retrieved expected k
  if p + r = 0 then 0
  else 2 * (p * r) / (p + r)

/-! ## Spec-side definitions for refinement claims -/

/-- Modelled from the spec (§4.4): per-query recall@k as the set-cardinality
formula `|retrieved top-k ∩ expected| / |expected|`, defined as `1.0` when
expected is empty. -/
def recallSpec (retrieved expected : List String) (k : Nat) : ℚ :=
  if expected = [] then 1
  else (((retrieved.take k).toFinset ∩ expected.toFinset).card : ℚ) /
    (expected.toFinset.card : ℚ)

/-- Helper for the spec-side reading: remove exactly one matching pair of
`n`-character quote delimiters made of the character `q` from the two ends
of the character list, if present. -/
def stripDelim (q : Char) (n : Nat) (cs : List Char) : Option (List Char) :=
  if 2 * n ≤ cs.length ∧ cs.take n = List.replicate n q
      ∧ cs.drop (cs.length - n) = List.replicate n q
  then some ((cs.drop n).take (cs.length - 2 * n)) else none

/-- Modelled from the spec (§4.1 step 4): the text of a string literal with
its quote markers stripped — remove the literal's triple-double, triple-single,
double or single quote delimiters from the two ends, and nothing else. -/
def stripQuoteMarkersSpec (s : String) : String :=
  let cs := s.toList
  match stripDelim '"' 3 cs with
  | some r => String.mk r
  | none =>
    match stripDelim '\'' 3 cs with
    | some r => String.mk r
    | none =>
      match stripDelim '"' 1 cs with
      | some r => String.mk r
      | none =>
        match stripDelim '\'' 1 cs with
        | some r => String.mk r
        | none => s


/-! ## Concrete inputs used by the counterexamples and witnesses -/

/-- The bytes of the latin-1 file (byte 233 is the latin-1 e-acute). -/
def c2src : List Nat :=
  [100, 101, 102, 32, 102, 40, 41, 58, 10, 32, 32, 32, 32, 34, 233, 34, 10]

/-- The string literal node spanning bytes 13–16 (the undecodable span). -/
def c2str : Node := .mk "string" 13 16 1 1 []

/-- The expression statement holding the string literal. -/
def c2exprStmt : Node := .mk "expression_statement" 13 16 1 1 [c2str]

/-- The function body block. -/
def c2block : Node := .mk "block" 13 16 1 1 [c2exprStmt]

/-- The function definition spanning bytes 0–16 (rows 0–1). -/
def c2funcDef : Node :=
  .mk "function_definition" 0 16 0 1
    [.mk "def" 0 3 0 0 [], .mk "identifier" 4 5 0 0 [],
     .mk "parameters" 5 7 0 0 [], .mk ":" 7 8 0 0 [], c2block]

/-- The parsed module for the latin-1 file. -/
def c2tree : Node := .mk "module" 0 17 0 2 [c2funcDef]

/-- The bytes of `def g():` newline, four spaces, `pass`, newline. -/
def c5src : List Nat :=
  [100, 101, 102, 32, 103, 40, 41, 58, 10, 32, 32, 32, 32, 112, 97, 115, 115, 10]

/-- The body of the test-file function. -/
def c5block : Node := .mk "block" 13 17 1 1 [.mk "pass_statement" 13 17 1 1 []]

/-- The function definition of the test file. -/
def c5funcDef : Node :=
  .mk "function_definition" 0 17 0 1
    [.mk "def" 0 3 0 0 [], .mk "identifier" 4 5 0 0 [],
     .mk "parameters" 5 7 0 0 [], .mk ":" 7 8 0 0 [], c5block]

/-- The parsed module of the test file. -/
def c5tree : Node := .mk "module" 0 18 0 2 [c5funcDef]

/-- A file living inside a test directory. -/
def c5file : RepoFile :=
  { path := "tests/test_foo.py", relPath := "tests/test_foo.py",
    source := c5src, tree := c5tree }

/-- The unit that `chunk_repository` produces from the test file. -/
def c5chunk : CodeChunk :=
  { id := "tests/test_foo.py::g", file_path := "tests/test_foo.py", name := "g",
    chunk_type := "function", code := "def g():\n    pass", start_line := 1,
    end_line := 2, docstring := none, parent_class := none, imports := some [] }

/-- The bytes of the decorated file: `@d` newline, `def f():` newline,
four spaces, the docstring `"x"`, newline. -/
def c6src : List Nat :=
  [64, 100, 10, 100, 101, 102, 32, 102, 40, 41, 58, 10,
   32, 32, 32, 32, 34, 120, 34, 10]

/-- The string literal node of the docstring `"x"`. -/
def c6str : Node := .mk "string" 16 19 2 2 []

/-- The expression statement holding the docstring. -/
def c6exprStmt : Node := .mk "expression_statement" 16 19 2 2 [c6str]

/-- The body of the wrapped function: its first statement is the lone
string literal. -/
def c6block : Node := .mk "block" 16 19 2 2 [c6exprStmt]

/-- The wrapped function definition. -/
def c6funcDef : Node :=
  .mk "function_definition" 3 19 1 2
    [.mk "def" 3 6 1 1 [], .mk "identifier" 7 8 1 1 [],
     .mk "parameters" 8 10 1 1 [], .mk ":" 10 11 1 1 [], c6block]

/-- The decorator node `@d`. -/
def c6decorator : Node :=
  .mk "decorator" 0 2 0 0 [.mk "@" 0 1 0 0 [], .mk "identifier" 1 2 0 0 []]

/-- The decorated definition wrapping the function. -/
def c6decorated : Node := .mk "decorated_definition" 0 19 0 2 [c6decorator, c6funcDef]

/-- The parsed module of the decorated file. -/
def c6tree : Node := .mk "module" 0 20 0 3 [c6decorated]

/-- The unit the chunker emits for the decorated function: no docstring. -/
def c6chunk : CodeChunk :=
  { id := "m.py::f", file_path := "m.py", name := "f", chunk_type := "function",
    code := "@d\ndef f():\n    \"x\"", start_line := 1, end_line := 3,
    docstring := none, parent_class := none, imports := some [] }

/-- The bytes of the decorated file `@d` newline, `def g():` newline,
four spaces, `pass`, newline. -/
def c7src : List Nat :=
  [64, 100, 10, 100, 101, 102, 32, 103, 40, 41, 58, 10,
   32, 32, 32, 32, 112, 97, 115, 115, 10]

/-- The body of the decorated function. -/
def c7block : Node := .mk "block" 16 20 2 2 [.mk "pass_statement" 16 20 2 2 []]

/-- The wrapped function definition (span starts at the `def` keyword). -/
def c7func : Node :=
  .mk "function_definition" 3 20 1 2
    [.mk "def" 3 6 1 1 [], .mk "identifier" 7 8 1 1 [],
     .mk "parameters" 8 10 1 1 [], .mk ":" 10 11 1 1 [], c7block]

/-- The decorator node `@d`. -/
def c7decorator : Node :=
  .mk "decorator" 0 2 0 0 [.mk "@" 0 1 0 0 [], .mk "identifier" 1 2 0 0 []]

/-- The decorated definition (span starts at the annotation). -/
def c7decorated : Node := .mk "decorated_definition" 0 20 0 2 [c7decorator, c7func]

/-- The single unit emitted for the decorated function: its code and line
range are those of the outer annotation-inclusive node. -/
def c7chunk : CodeChunk :=
  { id := "m.py::g", file_path := "m.py", name := "g", chunk_type := "function",
    code := "@d\ndef g():\n    pass", start_line := 1, end_line := 3,
    docstring := none, parent_class := none, imports := none }

/-- The bytes of the decorated class file `@d` newline, `class C:` newline,
four spaces, `pass`, newline. -/
def c7clsSrc : List Nat :=
  [64, 100, 10, 99, 108, 97, 115, 115, 32, 67, 58, 10,
   32, 32, 32, 32, 112, 97, 115, 115, 10]

/-- The body of the decorated class (a lone `pass` statement). -/
def c7clsBlock : Node := .mk "block" 16 20 2 2 [.mk "pass_statement" 16 20 2 2 []]

/-- The wrapped class definition (span starts at the `class` keyword). -/
def c7cls : Node :=
  .mk "class_definition" 3 20 1 2
    [.mk "class" 3 8 1 1 [], .mk "identifier" 9 10 1 1 [],
     .mk ":" 10 11 1 1 [], c7clsBlock]

/-- The decorated class definition (span starts at the annotation). -/
def c7decoratedCls : Node := .mk "decorated_definition" 0 20 0 2 [c7decorator, c7cls]

/-- The single unit emitted for the decorated class: its code and line
range are those of the outer annotation-inclusive node, and the decorator
contributes no unit of its own. -/
def c7clsChunk : CodeChunk :=
  { id := "m.py::C", file_path := "m.py", name := "C", chunk_type := "class",
    code := "@d\nclass C:\n    pass", start_line := 1, end_line := 3,
    docstring := none, parent_class := none, imports := none }

/-! ## Monadic reduction helpers and one-step traversal equations -/

/-- Reduction of the monadic bind on a success value. -/
theorem exceptBind_ok {α β : Type} (a : α) (f : α → Except Unit β) :
    (Except.ok a >>= f) = f a := rfl

/-- Reduction of the monadic bind on an error value. -/
theorem exceptBind_error {α β : Type} (f : α → Except Unit β) :
    ((Except.error () : Except Unit α) >>= f) = Except.error () := rfl

/-! ### One-step equations of the traversal loop -/

/-- The empty child list yields nothing. -/
theorem extractChildren_nil (src : List Nat) (fp : String) (pc : Option String) :
    extractChildren src fp pc [] = .ok [] := by
  simp [extractChildren]

/-- A `decorated_definition` child is handled by the inner decorated loop
over its children, then the outer loop continues. -/
theorem extractChildren_decorated (src : List Nat) (fp : String) (pc : Option String)
    (child : Node) (rest : List Node) (h : child.ty = "decorated_definition") :
    extractChildren src fp pc (child :: rest) = (do
      let here ← decoratedSub src fp pc child child.children
      let tl ← extractChildren src fp pc rest
      pure (here ++ tl)) := by
  rw [extractChildren]
  simp [h]

/-- A plain `function_definition` child emits one chunk with no outer
node, then the loop continues; the body is not recursed into. -/
theorem extractChildren_function (src : List Nat) (fp : String) (pc : Option String)
    (child : Node) (rest : List Node)
    (h1 : child.ty ≠ "decorated_definition") (h2 : child.ty = "function_definition") :
    extractChildren src fp pc (child :: rest) = (do
      let c ← makeChunk child src fp "function" pc none
      let tl ← extractChildren src fp pc rest
      pure ([c] ++ tl)) := by
  rw [extractChildren]
  simp only [h1, h2, if_false, if_true, reduceIte]
  cases hmk : makeChunk child src fp "function" pc none <;>
    cases hrest : extractChildren src fp pc rest <;>
      simp [Bind.bind, Except.bind, Pure.pure, Except.pure]

/-- Any child that is no definition at all is recursed into, carrying the
parent-class context, then the loop continues. -/
theorem extractChildren_other (src : List Nat) (fp : String) (pc : Option String)
    (child : Node) (rest : List Node)
    (h1 : child.ty ≠ "decorated_definition") (h2 : child.ty ≠ "function_definition")
    (h3 : child.ty ≠ "class_definition") :
    extractChildren src fp pc (child :: rest) = (do
      let here ← extractChildren src fp pc child.children
      let tl ← extractChildren src fp pc rest
      pure (here ++ tl)) := by
  rw [extractChildren]
  simp [h1, h2, h3]

/-- The inner decorated loop on the empty list yields nothing. -/
theorem decoratedSub_nil (src : List Nat) (fp : String) (pc : Option String)
    (outer : Node) : decoratedSub src fp pc outer [] = .ok [] := by
  simp [decoratedSub]

/-- Inside a decorated definition, a child that is neither a function nor a
class definition — a decorator in particular — emits nothing and is not
recursed into. -/
theorem decoratedSub_skip (src : List Nat) (fp : String) (pc : Option String)
    (outer d : Node) (rest : List Node)
    (h1 : d.ty ≠ "function_definition") (h2 : d.ty ≠ "class_definition") :
    decoratedSub src fp pc outer (d :: rest) = decoratedSub src fp pc outer rest := by
  rw [decoratedSub]
  simp only [h1, h2, if_false, reduceIte]
  cases hrest : decoratedSub src fp pc outer rest <;>
    simp [Bind.bind, Except.bind, Pure.pure, Except.pure]

/-- Inside a decorated definition, a wrapped function definition emits one
chunk whose outer node is the decorated node. -/
theorem decoratedSub_function (src : List Nat) (fp : String) (pc : Option String)
    (outer sub : Node) (rest : List Node) (h : sub.ty = "function_definition") :
    decoratedSub src fp pc outer (sub :: rest) = (do
      let c ← makeChunk sub src fp "function" pc (some outer)
      let tl ← decoratedSub src fp pc outer rest
      pure ([c] ++ tl)) := by
  rw [decoratedSub]
  simp only [h, if_true, reduceIte]
  cases hmk : makeChunk sub src fp "function" pc (some outer) <;>
    cases hrest : decoratedSub src fp pc outer rest <;>
      simp [Bind.bind, Except.bind, Pure.pure, Except.pure]

/-- Inside a decorated definition, a wrapped class definition with a body
block emits its class chunk with the decorated node as outer node, then the
chunks of the class body with the class name as parent context. -/
theorem decoratedSub_class_body (src : List Nat) (fp : String) (pc : Option String)
    (outer sub : Node) (rest : List Node) (classBody : Node)
    (h1 : sub.ty ≠ "function_definition") (h2 : sub.ty = "class_definition")
    (hb : getChildByType sub.children "block" = some classBody) :
    decoratedSub src fp pc outer (sub :: rest) = (do
      let className ← getName src sub
      let c ← makeChunk sub src fp "class" none (some outer)
      let inner ← extractChildren src fp (some className) classBody.children
      let tl ← decoratedSub src fp pc outer rest
      pure ((c :: inner) ++ tl)) := by
  rw [decoratedSub]
  rw [if_neg h1, if_pos h2]
  cases hnm : getName src sub with
  | error e => cases e; simp [Bind.bind, Except.bind]
  | ok className =>
    simp only [exceptBind_ok, Bind.bind, Except.bind]
    cases hmk : makeChunk sub src fp "class" none (some outer) with
    | error e => cases e; simp
    | ok c =>
      dsimp only
      split
      all_goals simp_all
      all_goals
        cases hin : extractChildren src fp (some className) classBody.children <;>
          cases hrest : decoratedSub src fp pc outer rest <;>
            simp [Pure.pure, Except.pure]

/-- Inside a decorated definition, a wrapped class definition without a
body block emits just its class chunk with the decorated node as outer
node. -/
theorem decoratedSub_class_nobody (src : List Nat) (fp : String) (pc : Option String)
    (outer sub : Node) (rest : List Node)
    (h1 : sub.ty ≠ "function_definition") (h2 : sub.ty = "class_definition")
    (hb : getChildByType sub.children "block" = none) :
    decoratedSub src fp pc outer (sub :: rest) = (do
      let className ← getName src sub
      let c ← makeChunk sub src fp "class" none (some outer)
      let tl ← decoratedSub src fp pc outer rest
      pure (([c] : List CodeChunk) ++ tl)) := by
  rw [decoratedSub]
  rw [if_neg h1, if_pos h2]
  cases hnm : getName src sub with
  | error e => cases e; simp [Bind.bind, Except.bind]
  | ok className =>
    simp only [exceptBind_ok, Bind.bind, Except.bind]
    cases hmk : makeChunk sub src fp "class" none (some outer) with
    | error e => cases e; simp
    | ok c =>
      dsimp only
      split
      all_goals simp_all
      all_goals
        cases hrest : decoratedSub src fp pc outer rest <;>
          simp [Pure.pure, Except.pure]

/-- Any run of decorator children inside a decorated definition emits
nothing at all: the loop result is that of the remaining children. -/
theorem decoratedSub_skip_all (src : List Nat) (fp : String) (pc : Option String)
    (outer : Node) (decs l : List Node)
    (hdecs : ∀ d ∈ decs, d.ty = "decorator") :
    decoratedSub src fp pc outer (decs ++ l) = decoratedSub src fp pc outer l := by
  induction decs with
  | nil => rw [List.nil_append]
  | cons d t ih =>
    have hd := hdecs d (List.mem_cons_self d t)
    rw [List.cons_append, decoratedSub_skip src fp pc outer d (t ++ l)
      (by rw [hd]; decide) (by rw [hd]; decide)]
    exact ih (fun x hx => hdecs x (List.mem_cons_of_mem d hx))

/-! ## Auxiliary lemmas -/

/-- Counting the distinct elements of `l` that lie in `m` is the cardinality
of the intersection of the two underlying finite sets. -/
theorem dedup_filter_length_eq_card_inter (l m : List String) :
    ((l.dedup.filter (fun x => x ∈ m.dedup)).length : ℚ)
      = ((l.toFinset ∩ m.toFinset).card : ℚ) := by
  have hset : l.toFinset ∩ m.toFinset = (l.dedup.filter (fun x => x ∈ m.dedup)).toFinset := by
    ext x
    simp [List.mem_filter, List.mem_dedup, and_comm]
  rw [hset, List.toFinset_card_of_nodup (l.nodup_dedup.filter _)]

/-! ## C8: recall@k agrees with the spec formula -/

/-- The list-based recall computation agrees with the finite-set formula. -/
theorem recall_at_k_as_finset (retrieved expected : List String) (k : Nat) :
    recall_at_k retrieved expected k = recallSpec retrieved expected k := by
  unfold recall_at_k recallSpec
  by_cases h : expected = []
  · simp [h]
  · simp only [h, if_false]
    rw [dedup_filter_length_eq_card_inter, List.card_toFinset]

/-- C8.  For every retrieved list, expected list and `k`, the code's
`recall_at_k` equals the spec formula `|retrieved top-k ∩ expected| /
|expected|`, and equals `1.0` whenever expected is empty regardless of the
retrieved content. -/
theorem recall_at_k_matches_spec (retrieved expected : List String) (k : Nat) :
    recall_at_k retrieved expected k = recallSpec retrieved expected k
    ∧ (expected = [] → recall_at_k retrieved expected k = 1) := by
  refine ⟨recall_at_k_as_finset retrieved expected k, fun h => by simp [recall_at_k, h]⟩

/-- Witness for C8: a concrete half-recall query and an empty-expected
query. -/
theorem recall_at_k_matches_spec_witness :
    recall_at_k ["a", "b", "c"] ["b", "x"] 3 = recallSpec ["a", "b", "c"] ["b", "x"] 3
    ∧ recall_at_k ["a", "b"] [] 2 = 1 :=
  ⟨(recall_at_k_matches_spec ["a", "b", "c"] ["b", "x"] 3).1,
   (recall_at_k_matches_spec ["a", "b"] [] 2).2 rfl⟩

/-! ## C10: all four per-query metrics lie in [0, 1] -/

/-- The recall value is a ratio of a subset cardinality to the full
cardinality, hence within `[0, 1]`. -/
theorem recall_at_k_bounds (retrieved expected : List String) (k : Nat) :
    0 ≤ recall_at_k retrieved expected k ∧ recall_at_k retrieved expected k ≤ 1 := by
  rw [recall_at_k_as_finset retrieved expected k]
  unfold recallSpec
  by_cases h : expected = []
  · simp [h]
  · simp only [h, if_false]
    have hcard : 0 < expected.toFinset.card := by
      rw [Finset.card_pos, Finset.nonempty_iff_ne_empty]
      simpa [List.toFinset_eq_empty_iff] using h
    have hden : (0 : ℚ) < (expected.toFinset.card : ℚ) := by positivity
    constructor
    · positivity
    · rw [div_le_one hden]
      have hsub : (retrieved.take k).toFinset ∩ expected.toFinset ⊆ expected.toFinset :=
        Finset.inter_subset_right
      exact_mod_cast Finset.card_le_card hsub

/-- The precision value counts hits among at most `|top-k|` items. -/
theorem precision_at_k_bounds (retrieved expected : List String) (k : Nat) :
    0 ≤ precision_at_k retrieved expected k ∧ precision_at_k retrieved expected k ≤ 1 := by
  unfold precision_at_k
  by_cases h : retrieved.take k = []
  · simp [h]
  · simp only [h, if_false]
    have hlen : 0 < (retrieved.take k).length := List.length_pos.mpr h
    have hden : (0 : ℚ) < ((retrieved.take k).length : ℚ) := by exact_mod_cast hlen
    constructor
    · positivity
    · rw [div_le_one hden]
      exact_mod_cast List.countP_le_length _

/-- The reciprocal-rank value is `0` or the reciprocal of a positive rank. -/
theorem mrr_bounds (retrieved expected : List String) :
    0 ≤ mrr retrieved expected ∧ mrr retrieved expected ≤ 1 := by
  unfold mrr
  cases h : retrieved.findIdx? (fun x => decide (x ∈ expected)) with
  | none => simp
  | some i =>
    have hpos : (0 : ℚ) < (i : ℚ) + 1 := by positivity
    constructor
    · positivity
    · rw [div_le_one hpos]
      have : (1 : ℚ) ≤ (i : ℚ) + 1 := by
        have : (0 : ℚ) ≤ (i : ℚ) := by positivity
        linarith
      exact this

/-- The harmonic mean of two values in `[0, 1]` stays in `[0, 1]`. -/
theorem f1_at_k_bounds (retrieved expected : List String) (k : Nat) :
    0 ≤ f1_at_k retrieved expected k ∧ f1_at_k retrieved expected k ≤ 1 := by
  unfold f1_at_k
  obtain ⟨hp0, hp1⟩ := precision_at_k_bounds retrieved expected k
  obtain ⟨hr0, hr1⟩ := recall_at_k_bounds retrieved expected k
  set p := precision_at_k retrieved expected k with hp
  set r := recall_at_k retrieved expected k with hr
  by_cases h : p + r = 0
  · simp [h]
  · simp only [h, if_false]
    have hsum : 0 < p + r := lt_of_le_of_ne (by linarith) (Ne.symm h)
    constructor
    · positivity
    · rw [div_le_one hsum]
      nlinarith

/-- C10.  For every retrieved list, expected list and `k ≥ 1`, each of the
four per-query metrics returns a value in the closed interval `[0, 1]`. -/
theorem metrics_in_unit_interval (retrieved expected : List String) (k : Nat)
    (hk : 1 ≤ k) :
    (0 ≤ recall_at_k retrieved expected k ∧ recall_at_k retrieved expected k ≤ 1)
    ∧ (0 ≤ precision_at_k retrieved expected k ∧ precision_at_k retrieved expected k ≤ 1)
    ∧ (0 ≤ mrr retrieved expected ∧ mrr retrieved expected ≤ 1)
    ∧ (0 ≤ f1_at_k retrieved expected k ∧ f1_at_k retrieved expected k ≤ 1) :=
  ⟨recall_at_k_bounds retrieved expected k,
   precision_at_k_bounds retrieved expected k,
   mrr_bounds retrieved expected,
   f1_at_k_bounds retrieved expected k⟩

/-- Witness for C10 at a concrete input. -/
theorem metrics_in_unit_interval_witness :
    (0 ≤ recall_at_k ["a", "b"] ["b", "z"] 2 ∧ recall_at_k ["a", "b"] ["b", "z"] 2 ≤ 1)
    ∧ (0 ≤ precision_at_k ["a", "b"] ["b", "z"] 2 ∧ precision_at_k ["a", "b"] ["b", "z"] 2 ≤ 1)
    ∧ (0 ≤ mrr ["a", "b"] ["b", "z"] ∧ mrr ["a", "b"] ["b", "z"] ≤ 1)
    ∧ (0 ≤ f1_at_k ["a", "b"] ["b", "z"] 2 ∧ f1_at_k ["a", "b"] ["b", "z"] 2 ≤ 1) :=
  metrics_in_unit_interval ["a", "b"] ["b", "z"] 2 (by decide)

/-! ## C9: the index-readiness wait is an unbounded poll loop -/

/-- When readiness first holds at poll `k` (counting from start index `i`),
the loop returns after exactly `k` sleeps of length `timeout`. -/
theorem wait_for_index_first_ready (ready : Nat → Bool) (timeout : ℚ) :
    ∀ (k fuel i : Nat), k < fuel → (∀ j, j < k → ready (i + j) = false) →
      ready (i + k) = true →
      wait_for_index ready timeout fuel i = some ((k : ℚ) * timeout) := by
  intro k
  induction k with
  | zero =>
    intro fuel i hf h0 hr
    match fuel, hf with
    | fuel + 1, _ =>
      simp [wait_for_index, show ready i = true from by simpa using hr]
  | succ k ih =>
    intro fuel i hf h0 hr
    match fuel, hf with
    | fuel + 1, hf =>
      have hri : ready i = false := by simpa using h0 0 (Nat.succ_pos k)
      have hstep : ∀ j, j < k → ready (i + 1 + j) = false := by
        intro j hj
        have := h0 (j + 1) (Nat.succ_lt_succ hj)
        simpa [Nat.add_assoc, Nat.add_comm 1 j] using this
      have hrk : ready (i + 1 + k) = true := by
        simpa [Nat.add_assoc, Nat.add_comm 1 k] using hr
      rw [wait_for_index]
      simp only [hri, if_false]
      rw [ih fuel (i + 1) (Nat.lt_of_succ_lt_succ hf) hstep hrk]
      simp [Option.map]
      ring

/-- C9.  The readiness wait is a polling loop with no enforced deadline:
if the engine never reports ready, no iteration bound makes the loop
return (`none` for every fuel), and when readiness first holds at poll `k`
the loop has slept `k` full `timeout` intervals — the `timeout` parameter
is the fixed sleep between checks, not a ceiling on the total wait. -/
theorem wait_for_index_unbounded :
    (∀ (ready : Nat → Bool) (timeout : ℚ) (fuel i : Nat),
        (∀ n, ready n = false) → wait_for_index ready timeout fuel i = none)
    ∧ (∀ (ready : Nat → Bool) (timeout : ℚ) (k fuel : Nat),
        k < fuel → (∀ j, j < k → ready j = false) → ready k = true →
        wait_for_index ready timeout fuel 0 = some ((k : ℚ) * timeout)) := by
  constructor
  · intro ready timeout fuel
    induction fuel with
    | zero => intro i _; rfl
    | succ fuel ih =>
      intro i h
      rw [wait_for_index]
      simp [h i, ih (i + 1) h]
  · intro ready timeout k fuel hk h0 hr
    exact wait_for_index_first_ready ready timeout k fuel 0 hk
      (by simpa using h0) (by simpa using hr)

/-- Witness for C9: a never-ready engine blocks past any bound; an engine
first ready at the third check costs two 5-second sleeps. -/
theorem wait_for_index_unbounded_witness :
    wait_for_index (fun _ => false) 5 100 0 = none
    ∧ wait_for_index (fun n => decide (n = 2)) 5 100 0 = some 10 := by
  constructor
  · exact wait_for_index_unbounded.1 (fun _ => false) 5 100 0 (fun _ => rfl)
  · have h := wait_for_index_unbounded.2 (fun n => decide (n = 2)) 5 2 100
      (by decide) (by decide) (by decide)
    norm_num at h
    exact h

/-! ## C4: indexing an empty chunk list is a complete no-op -/

/-- C4.  Indexing an empty chunk list returns `0` and the untouched store
state — nothing is embedded, written or waited for — so a previously
unindexed repository still reports not-indexed afterwards. -/
theorem index_zero_chunks_noop (s : StoreState) (repoPath : String)
    (embed : String → List ℚ) (ready : Nat → Bool) (fuel : Nat) (now : String) :
    index_chunks s repoPath [] embed ready fuel now = some (0, s)
    ∧ (s.metadata = none → get_stats s = .not_indexed) := by
  constructor
  · simp [index_chunks]
  · intro h
    simp [get_stats, h]

/-- Witness for C4 on the fresh (never indexed) store state. -/
theorem index_zero_chunks_noop_witness :
    index_chunks ⟨none, none⟩ "/repo" [] (fun _ => []) (fun _ => false) 0 "now"
      = some (0, (⟨none, none⟩ : StoreState))
    ∧ get_stats ⟨none, none⟩ = Stats.not_indexed :=
  ⟨(index_zero_chunks_noop ⟨none, none⟩ "/repo" (fun _ => []) (fun _ => false) 0 "now").1,
   (index_zero_chunks_noop ⟨none, none⟩ "/repo" (fun _ => []) (fun _ => false) 0 "now").2 rfl⟩

/-! ## C3: searching or asking with no index surfaces the condition -/

/-- C3.  Against a repository with no built index the boundary search
operation raises the not-indexed `ValueError` instead of returning results,
and `answer_question` reports the not-indexed condition to its caller
without running any search. -/
theorem not_indexed_surfaced (store : StoreState)
    (engine : String → Nat → List RawRow) (repoPathStr query question : String)
    (limit numChunks : Nat) (searchType : Int)
    (runSearch : Strategy → String → Nat → List SearchResult)
    (generate : String → String → String)
    (h : is_indexed store = false) :
    search_code store engine repoPathStr query limit
      = .error ("Repository not indexed. Run: codecompass index " ++ repoPathStr)
    ∧ answer_question store repoPathStr question numChunks searchType runSearch generate
      = "Repository not indexed. Please run: codecompass index " ++ repoPathStr := by
  constructor
  · simp [search_code, h]
  · simp [answer_question, h]

/-- Witness for C3 on the store state with no table. -/
theorem not_indexed_surfaced_witness :
    search_code ⟨none, none⟩ (fun _ _ => []) "/repo" "q" 5
      = .error "Repository not indexed. Run: codecompass index /repo"
    ∧ answer_question ⟨none, none⟩ "/repo" "q" 5 0 (fun _ _ _ => []) (fun _ _ => "")
      = "Repository not indexed. Please run: codecompass index /repo" :=
  not_indexed_surfaced ⟨none, none⟩ (fun _ _ => []) "/repo" "q" "q" 5 5 0
    (fun _ _ _ => []) (fun _ _ => "") rfl

/-! ## C1: strategy-selector validation at the two boundaries -/

/-- Counterexample to C1 as stated: selector `99` is outside the fixed
strategy set, yet `answer_question` does not reject it — the `dict.get`
fallback silently selects the default HyDE strategy and the question is
answered normally. -/
theorem strategy_fallback_counterexample :
    SEARCH_STRATEGIES.lookup 99 = none
    ∧ ragSelectStrategy 99 = Strategy.hyde
    ∧ answer_question ⟨some [], none⟩ "/repo" "q" 5 99
        (fun _ _ _ => [⟨"i", "f.py", "n", "function", "c", 1, 2, "", 0⟩])
        (fun _ _ => "generated answer")
      = "generated answer" := by
  refine ⟨rfl, rfl, ?_⟩
  rfl

/-- C1 amended.  The CLI `search` boundary rejects a selector outside the
fixed set with the explicit invalid-search-type error, and dispatches known
selectors to their strategies; the ask/`answer_question` boundary performs
no such rejection — every unknown selector is silently mapped to the
default HyDE strategy. -/
theorem strategy_dispatch_amended :
    (∀ t : Int, SEARCH_STRATEGIES.lookup t = none →
        cliSelectStrategy t = .error "Invalid search type"
        ∧ ragSelectStrategy t = Strategy.hyde)
    ∧ (∀ (t : Int) (s : Strategy), SEARCH_STRATEGIES.lookup t = some s →
        cliSelectStrategy t = .ok s ∧ ragSelectStrategy t = s) := by
  constructor
  · intro t h
    simp [cliSelectStrategy, ragSelectStrategy, h]
  · intro t s h
    simp [cliSelectStrategy, ragSelectStrategy, h]

/-- Witness for the amended C1 at selectors 99 and 1. -/
theorem strategy_dispatch_amended_witness :
    (cliSelectStrategy 99 = .error "Invalid search type"
      ∧ ragSelectStrategy 99 = Strategy.hyde)
    ∧ (cliSelectStrategy 1 = .ok Strategy.baseline
      ∧ ragSelectStrategy 1 = Strategy.baseline) :=
  ⟨strategy_dispatch_amended.1 99 rfl, strategy_dispatch_amended.2 1 .baseline rfl⟩

/-! ## C2: undecodable source files are not silently skipped

`chunk_file` wraps only `file_path.read_bytes()` in its
`except UnicodeDecodeError` handler.  Reading raw bytes performs no
decoding, so that handler can never fire; the chunker then parses the raw
bytes and the UTF-8 decodes performed while producing chunks are outside
the handler.  The concrete input below is the 17-byte latin-1 file
`def f():` newline, four spaces, then the docstring `"\xe9"` — byte 233 is
not valid UTF-8, so the file cannot be decoded as text. -/

/-- C2.  The file bytes cannot be decoded as text, yet `chunk_file` does
not yield nothing: decoding the function's code span fails while the chunk
is being produced, and the failure escapes to the caller — the claimed
silent skip never happens because the handler guards a read that cannot
raise a decode error. -/
theorem chunk_file_undecodable_raises :
    utf8DecodeString c2src = none
    ∧ chunkFile "f.py" c2src c2tree = .error () := by
  constructor
  · rfl
  · have h1 : decodeBytes (byteSlice c2src 4 5) = .ok "f" := rfl
    have h2 : decodeBytes (byteSlice c2src 0 16) = .error () := rfl
    simp [chunkFile, extractImports, extractChildren, decoratedSub, makeChunk, getName,
      getChildByType, extractDocstring, Node.ty, Node.children, Node.sb, Node.eb,
      c2tree, c2funcDef, c2block, c2exprStmt, c2str, h1, h2, Bind.bind, Except.bind]

/-! ## C5: the repository ignore filter -/

/-- The boolean substring test agrees with the infix relation. -/
theorem isSubstring_iff (p : List Char) :
    ∀ l : List Char, isSubstring p l = true ↔ p <:+: l := by
  intro l
  induction l with
  | nil => simp [isSubstring, List.isEmpty_iff, List.infix_nil]
  | cons c rest ih =>
    simp [isSubstring, List.isPrefixOf_iff_prefix, List.infix_cons_iff, ih]

/-- The filter condition holds exactly when some ignore pattern occurs as a
substring of the path. -/
theorem ignoredPath_eq_true_iff (path : String) :
    ignoredPath path = true
      ↔ ∃ pat ∈ ignorePatterns, pat.toList <:+: path.toList := by
  simp [ignoredPath, List.any_eq_true, isSubstring_iff]

/-- C5 amended.  `chunk_repository` applies `chunk_file` to exactly the
files whose path string contains none of the twelve configured ignore
patterns as a substring; the pattern list covers virtual environments,
caches, version control, build artifacts and the scratch/scripts/evaluation
directories, but contains no test pattern, so files under test directories
are not excluded. -/
theorem chunk_repository_filter_amended (files : List RepoFile) :
    chunkRepository files
      = chunkFiles (files.filter (fun f =>
          decide (∀ pat ∈ ignorePatterns, ¬ pat.toList <:+: f.path.toList))) := by
  unfold chunkRepository
  congr 1
  apply List.filter_congr
  intro f _
  have hb := ignoredPath_eq_true_iff f.path
  cases hignored : ignoredPath f.path
  · simp only [Bool.not_false]
    symm
    rw [decide_eq_true_eq]
    intro pat hpat hinf
    have := hb.mpr ⟨pat, hpat, hinf⟩
    simp [hignored] at this
  · simp only [Bool.not_true]
    symm
    rw [decide_eq_false_iff_not]
    intro hall
    obtain ⟨pat, hpat, hinf⟩ := hb.mp hignored
    exact hall pat hpat hinf

/-- Counterexample to C5 as stated: a file inside the `tests` directory
passes the ignore filter — no configured pattern occurs in its path — and
`chunk_repository` produces a unit from it. -/
theorem test_directory_not_excluded :
    ignoredPath "tests/test_foo.py" = false
    ∧ chunkRepository [c5file] = .ok [c5chunk] := by
  have hig : ignoredPath "tests/test_foo.py" = false := by decide
  refine ⟨hig, ?_⟩
  have h1 : decodeBytes (byteSlice c5src 4 5) = .ok "g" := rfl
  have h2 : decodeBytes (byteSlice c5src 0 17) = .ok "def g():\n    pass" := rfl
  simp [chunkRepository, chunkFiles, chunkFile, extractImports, extractChildren,
    decoratedSub, makeChunk, getName, getChildByType, extractDocstring, Node.ty,
    Node.children, Node.sb, Node.eb, Node.sr, Node.er, c5file, c5tree, c5funcDef,
    c5block, c5chunk, h1, h2, hig, Bind.bind, Except.bind, Pure.pure, Except.pure]

/-! ## C6: docstring extraction -/

/-- Counterexample to C6 as stated: the decorated function's body begins
with the lone string literal `"x"` — whose text with quote markers stripped
is `x`, as the docstring lookup on the wrapped definition node confirms —
yet the emitted unit carries no docstring, because the chunker looks the
docstring up on the annotation-inclusive outer node, which has no body
block. -/
theorem decorated_docstring_counterexample :
    chunkFile "m.py" c6src c6tree = .ok [c6chunk]
    ∧ c6chunk.docstring = none
    ∧ extractDocstring c6funcDef c6src = .ok (some "x")
    ∧ stripQuoteMarkersSpec (String.mk ['"', 'x', '"']) = "x" := by
  refine ⟨?_, rfl, ?_, ?_⟩
  · have h5 : makeChunk c6funcDef c6src "m.py" "function" none (some c6decorated)
        = .ok { id := "m.py::f", file_path := "m.py", name := "f",
                chunk_type := "function", code := "@d\ndef f():\n    \"x\"",
                start_line := 1, end_line := 3, docstring := none,
                parent_class := none, imports := none } := rfl
    have t1 : c6decorator.ty = "decorator" := rfl
    have t2 : c6funcDef.ty = "function_definition" := rfl
    have t3 : c6tree.children = [c6decorated] := rfl
    have t4 : c6decorated.ty = "decorated_definition" := rfl
    have t5 : c6decorated.children = [c6decorator, c6funcDef] := rfl
    have hskip := decoratedSub_skip c6src "m.py" none c6decorated c6decorator [c6funcDef]
      (by rw [t1]; decide) (by rw [t1]; decide)
    have hdec := extractChildren_decorated c6src "m.py" none c6decorated [] t4
    have hfun := decoratedSub_function c6src "m.py" none c6decorated c6funcDef [] t2
    simp only [chunkFile, t3, hdec, t5, hskip, hfun, h5, extractChildren_nil,
      decoratedSub_nil, exceptBind_ok]
    rfl
  · have h3 : decodeBytes (byteSlice c6src 16 19) = .ok "\"x\"" := rfl
    simp [extractDocstring, getChildByType, Node.ty, Node.children, Node.sb, Node.eb,
      c6funcDef, c6block, c6exprStmt, c6str, h3, Bind.bind, Except.bind,
      pyCleanDocstring, stripChars, pyWhitespace]
  · rfl

/-- C6 amended.  Docstring extraction runs on the node whose span is the
unit's code span.  (1) When that node has a body block whose first
statement is an expression statement whose first child is a string literal,
the docstring is the literal's decoded text with every leading and trailing
quote character and then surrounding whitespace stripped (the strip chain
of the source, which also eats quote characters belonging to the text
itself).  (2) In every other shape the docstring is absent.  (3) For a
decorated definition the node is the annotation-inclusive outer node; it
has no body block, so the emitted unit's docstring is always absent. -/
theorem docstring_extraction_amended :
    (∀ (src : List Nat) (n body firstStmt expr : Node) (s : String),
        getChildByType n.children "block" = some body →
        body.children.head? = some firstStmt →
        firstStmt.ty = "expression_statement" →
        firstStmt.children.head? = some expr →
        expr.ty = "string" →
        utf8DecodeString (byteSlice src expr.sb expr.eb) = some s →
        extractDocstring n src = .ok (some (pyCleanDocstring s)))
    ∧ (∀ (src : List Nat) (n : Node),
        (∀ body, getChildByType n.children "block" = some body →
          ∀ firstStmt, body.children.head? = some firstStmt →
            firstStmt.ty = "expression_statement" →
            ∀ expr, firstStmt.children.head? = some expr → expr.ty ≠ "string") →
        extractDocstring n src = .ok none)
    ∧ (∀ (node outer : Node) (src : List Nat) (fp ct : String)
          (pc : Option String) (ck : CodeChunk),
        getChildByType outer.children "block" = none →
        makeChunk node src fp ct pc (some outer) = .ok ck →
        ck.docstring = none) := by
  refine ⟨?_, ?_, ?_⟩
  · intro src n body firstStmt expr s hb hh hty hh2 hexpr hdec
    obtain ⟨t, hbc⟩ : ∃ t, body.children = firstStmt :: t := by
      cases hbcc : body.children with
      | nil => rw [hbcc] at hh; cases hh
      | cons a t =>
        rw [hbcc] at hh
        simp only [List.head?_cons, Option.some.injEq] at hh
        exact ⟨t, by rw [hh]⟩
    obtain ⟨t2, hfc⟩ : ∃ t2, firstStmt.children = expr :: t2 := by
      cases hfcc : firstStmt.children with
      | nil => rw [hfcc] at hh2; cases hh2
      | cons a t2 =>
        rw [hfcc] at hh2
        simp only [List.head?_cons, Option.some.injEq] at hh2
        exact ⟨t2, by rw [hh2]⟩
    have hd : decodeBytes (byteSlice src expr.sb expr.eb) = .ok s := by
      unfold decodeBytes
      rw [hdec]
    simp [extractDocstring, hb, hbc, hfc, hty, hexpr, hd, Bind.bind, Except.bind]
  · intro src n h
    cases hb : getChildByType n.children "block" with
    | none => simp [extractDocstring, hb]
    | some body =>
      cases hbc : body.children with
      | nil => simp [extractDocstring, hb, hbc]
      | cons firstStmt t =>
        by_cases hty : firstStmt.ty = "expression_statement"
        · cases hfc : firstStmt.children with
          | nil => simp [extractDocstring, hb, hbc, hty, hfc]
          | cons expr t2 =>
            have hne : expr.ty ≠ "string" :=
              h body hb firstStmt (by rw [hbc]; rfl) hty expr (by rw [hfc]; rfl)
            simp [extractDocstring, hb, hbc, hty, hfc, hne]
        · simp [extractDocstring, hb, hbc, hty]
  · intro node outer src fp ct pc ck hblock hmk
    have hdoc : extractDocstring outer src = .ok none := by
      simp [extractDocstring, hblock]
    unfold makeChunk at hmk
    simp only [Option.getD_some] at hmk
    cases hn : getName src node with
    | error e =>
      cases e
      rw [hn, exceptBind_error] at hmk
      cases hmk
    | ok name =>
      rw [hn] at hmk
      simp only [exceptBind_ok] at hmk
      cases hc : decodeBytes (byteSlice src outer.sb outer.eb) with
      | error e =>
        cases e
        rw [hc, exceptBind_error] at hmk
        cases hmk
      | ok code =>
        rw [hc] at hmk
        simp only [exceptBind_ok] at hmk
        rw [hdoc] at hmk
        simp only [exceptBind_ok] at hmk
        split at hmk <;> (injection hmk with h; rw [← h])

/-- Witness for the amended C6: a function whose whole source is the
docstring literal `"hi"` yields the docstring `hi`. -/
theorem docstring_extraction_amended_witness :
    extractDocstring
      (Node.mk "function_definition" 0 4 0 0
        [Node.mk "block" 0 4 0 0
          [Node.mk "expression_statement" 0 4 0 0 [Node.mk "string" 0 4 0 0 []]]])
      [34, 104, 105, 34] = .ok (some "hi") := by
  have h := docstring_extraction_amended.1 [34, 104, 105, 34]
    (Node.mk "function_definition" 0 4 0 0
      [Node.mk "block" 0 4 0 0
        [Node.mk "expression_statement" 0 4 0 0 [Node.mk "string" 0 4 0 0 []]]])
    (Node.mk "block" 0 4 0 0
      [Node.mk "expression_statement" 0 4 0 0 [Node.mk "string" 0 4 0 0 []]])
    (Node.mk "expression_statement" 0 4 0 0 [Node.mk "string" 0 4 0 0 []])
    (Node.mk "string" 0 4 0 0 []) "\"hi\"" rfl rfl rfl rfl rfl rfl
  rw [h]
  rfl

/-! ## C7: annotated definitions keep the outer span and emit one unit -/

/-- Success of the fallible decode, stated on the underlying decoder. -/
theorem decodeBytes_ok_iff (bs : List Nat) (s : String) :
    decodeBytes bs = .ok s ↔ utf8DecodeString bs = some s := by
  unfold decodeBytes
  cases utf8DecodeString bs <;> simp

/-- Running the decorated loop over any number of decorator children
followed by the wrapped function emits exactly the one chunk of the
wrapped function. -/
theorem decoratedSub_decorators (src : List Nat) (fp : String) (pc : Option String)
    (outer f : Node) (decs : List Node)
    (hdecs : ∀ d ∈ decs, d.ty = "decorator") (hf : f.ty = "function_definition") :
    decoratedSub src fp pc outer (decs ++ [f])
      = (makeChunk f src fp "function" pc (some outer)).map (fun c => [c]) := by
  induction decs with
  | nil =>
    simp only [List.nil_append]
    rw [decoratedSub_function src fp pc outer f [] hf]
    simp only [decoratedSub_nil]
    cases makeChunk f src fp "function" pc (some outer) <;>
      simp [Bind.bind, Except.bind, Pure.pure, Except.pure, Except.map]
  | cons d t ih =>
    have hd := hdecs d (List.mem_cons_self d t)
    rw [List.cons_append, decoratedSub_skip src fp pc outer d (t ++ [f])
      (by rw [hd]; decide) (by rw [hd]; decide)]
    exact ih (fun x hx => hdecs x (List.mem_cons_of_mem d hx))

/-- C7.  A definition wrapped in one or more annotations — a function or a
class — yields from the decorated child exactly the units of the wrapped
definition (one unit for a function; the class unit followed by the class
body's units for a class): the annotations are never emitted as units of
their own.  Moreover every chunk built with the decorated node as its outer
node carries the annotation-inclusive span: its code text is the decode of
the outer byte span and its 1-indexed line range is the outer row span. -/
theorem decorated_span_outer (src : List Nat) (fp : String) (pc : Option String)
    (sb eb sr er : Nat) (decs : List Node) (f : Node) (rest : List Node)
    (hdecs : ∀ d ∈ decs, d.ty = "decorator") :
    (f.ty = "function_definition" →
      extractChildren src fp pc
          (Node.mk "decorated_definition" sb eb sr er (decs ++ [f]) :: rest)
        = (do
            let c ← makeChunk f src fp "function" pc
              (some (Node.mk "decorated_definition" sb eb sr er (decs ++ [f])))
            let tl ← extractChildren src fp pc rest
            pure ([c] ++ tl)))
    ∧ (∀ classBody : Node, f.ty = "class_definition" →
        getChildByType f.children "block" = some classBody →
        extractChildren src fp pc
            (Node.mk "decorated_definition" sb eb sr er (decs ++ [f]) :: rest)
          = (do
              let className ← getName src f
              let c ← makeChunk f src fp "class" none
                (some (Node.mk "decorated_definition" sb eb sr er (decs ++ [f])))
              let inner ← extractChildren src fp (some className) classBody.children
              let tl ← extractChildren src fp pc rest
              pure ((c :: inner) ++ tl)))
    ∧ (f.ty = "class_definition" →
        getChildByType f.children "block" = none →
        extractChildren src fp pc
            (Node.mk "decorated_definition" sb eb sr er (decs ++ [f]) :: rest)
          = (do
              let className ← getName src f
              let c ← makeChunk f src fp "class" none
                (some (Node.mk "decorated_definition" sb eb sr er (decs ++ [f])))
              let tl ← extractChildren src fp pc rest
              pure (([c] : List CodeChunk) ++ tl)))
    ∧ (∀ (node : Node) (ct : String) (ck : CodeChunk),
        makeChunk node src fp ct pc
            (some (Node.mk "decorated_definition" sb eb sr er (decs ++ [f]))) = .ok ck →
        utf8DecodeString (byteSlice src sb eb) = some ck.code
        ∧ ck.start_line = sr + 1 ∧ ck.end_line = er + 1) := by
  refine ⟨?_, ?_, ?_, ?_⟩
  · intro hf
    rw [extractChildren_decorated src fp pc
      (Node.mk "decorated_definition" sb eb sr er (decs ++ [f])) rest rfl]
    simp only [Node.children]
    rw [decoratedSub_decorators src fp pc _ f decs hdecs hf]
    cases makeChunk f src fp "function" pc
        (some (Node.mk "decorated_definition" sb eb sr er (decs ++ [f]))) <;>
      simp [Bind.bind, Except.bind, Except.map]
  · intro classBody hcls hb
    rw [extractChildren_decorated src fp pc
      (Node.mk "decorated_definition" sb eb sr er (decs ++ [f])) rest rfl]
    rw [show (Node.mk "decorated_definition" sb eb sr er (decs ++ [f])).children
      = decs ++ [f] from rfl]
    rw [decoratedSub_skip_all src fp pc
      (Node.mk "decorated_definition" sb eb sr er (decs ++ [f])) decs [f] hdecs]
    rw [decoratedSub_class_body src fp pc
      (Node.mk "decorated_definition" sb eb sr er (decs ++ [f])) f [] classBody
      (by rw [hcls]; decide) hcls hb]
    simp only [decoratedSub_nil]
    cases hnm : getName src f with
    | error e => cases e; simp [Bind.bind, Except.bind]
    | ok className =>
      simp only [exceptBind_ok, Bind.bind, Except.bind]
      cases hmk : makeChunk f src fp "class" none
          (some (Node.mk "decorated_definition" sb eb sr er (decs ++ [f]))) with
      | error e => cases e; simp
      | ok c =>
        dsimp only
        cases hin : extractChildren src fp (some className) classBody.children with
        | error e => cases e; simp
        | ok inner =>
          cases hrest : extractChildren src fp pc rest with
          | error e => cases e; simp [Pure.pure, Except.pure]
          | ok tl => simp [Pure.pure, Except.pure]
  · intro hcls hb
    rw [extractChildren_decorated src fp pc
      (Node.mk "decorated_definition" sb eb sr er (decs ++ [f])) rest rfl]
    rw [show (Node.mk "decorated_definition" sb eb sr er (decs ++ [f])).children
      = decs ++ [f] from rfl]
    rw [decoratedSub_skip_all src fp pc
      (Node.mk "decorated_definition" sb eb sr er (decs ++ [f])) decs [f] hdecs]
    rw [decoratedSub_class_nobody src fp pc
      (Node.mk "decorated_definition" sb eb sr er (decs ++ [f])) f []
      (by rw [hcls]; decide) hcls hb]
    simp only [decoratedSub_nil]
    cases hnm : getName src f with
    | error e => cases e; simp [Bind.bind, Except.bind]
    | ok className =>
      simp only [exceptBind_ok, Bind.bind, Except.bind]
      cases hmk : makeChunk f src fp "class" none
          (some (Node.mk "decorated_definition" sb eb sr er (decs ++ [f]))) with
      | error e => cases e; simp
      | ok c =>
        dsimp only
        cases hrest : extractChildren src fp pc rest with
        | error e => cases e; simp [Pure.pure, Except.pure]
        | ok tl => simp [Pure.pure, Except.pure]
  · intro node ct ck hmk
    unfold makeChunk at hmk
    simp only [Option.getD_some, Node.sb, Node.eb, Node.sr, Node.er] at hmk
    cases hn : getName src node with
    | error e =>
      cases e
      rw [hn, exceptBind_error] at hmk
      cases hmk
    | ok name =>
      rw [hn] at hmk
      simp only [exceptBind_ok] at hmk
      cases hc : decodeBytes (byteSlice src sb eb) with
      | error e =>
        cases e
        rw [hc, exceptBind_error] at hmk
        cases hmk
      | ok code =>
        rw [hc] at hmk
        simp only [exceptBind_ok] at hmk
        cases hdoc : extractDocstring
            (Node.mk "decorated_definition" sb eb sr er (decs ++ [f])) src with
        | error e =>
          cases e
          rw [hdoc, exceptBind_error] at hmk
          cases hmk
        | ok doc =>
          rw [hdoc] at hmk
          simp only [exceptBind_ok] at hmk
          have hfields : ck.code = code ∧ ck.start_line = sr + 1 ∧ ck.end_line = er + 1 := by
            split at hmk <;> (injection hmk with h; rw [← h]; exact ⟨rfl, rfl, rfl⟩)
          refine ⟨?_, hfields.2.1, hfields.2.2⟩
          rw [hfields.1]
          exact (decodeBytes_ok_iff _ _).mp hc

/-- Witness for C7 at two concrete decorated files: a decorated function
and a decorated class. -/
theorem decorated_span_outer_witness :
    (extractChildren c7src "m.py" none [c7decorated] = .ok [c7chunk]
      ∧ utf8DecodeString (byteSlice c7src 0 20) = some c7chunk.code
      ∧ c7chunk.start_line = 1 ∧ c7chunk.end_line = 3)
    ∧ (extractChildren c7clsSrc "m.py" none [c7decoratedCls] = .ok [c7clsChunk]
      ∧ utf8DecodeString (byteSlice c7clsSrc 0 20) = some c7clsChunk.code
      ∧ c7clsChunk.start_line = 1 ∧ c7clsChunk.end_line = 3) := by
  have hdecs1 : ∀ d ∈ [c7decorator], d.ty = "decorator" := by
    intro d hd
    simp only [List.mem_singleton] at hd
    rw [hd]
    rfl
  constructor
  · have h := decorated_span_outer c7src "m.py" none 0 20 0 2 [c7decorator] c7func [] hdecs1
    have hmk : makeChunk c7func c7src "m.py" "function" none
        (some (Node.mk "decorated_definition" 0 20 0 2 ([c7decorator] ++ [c7func])))
        = .ok c7chunk := rfl
    have h3 := h.2.2.2 c7func "function" c7chunk hmk
    refine ⟨?_, h3.1, rfl, rfl⟩
    have hrepr : c7decorated
        = Node.mk "decorated_definition" 0 20 0 2 ([c7decorator] ++ [c7func]) := rfl
    rw [hrepr, h.1 rfl, hmk]
    simp only [extractChildren_nil, exceptBind_ok]
    rfl
  · have h := decorated_span_outer c7clsSrc "m.py" none 0 20 0 2 [c7decorator] c7cls [] hdecs1
    have hmk : makeChunk c7cls c7clsSrc "m.py" "class" none
        (some (Node.mk "decorated_definition" 0 20 0 2 ([c7decorator] ++ [c7cls])))
        = .ok c7clsChunk := rfl
    have h3 := h.2.2.2 c7cls "class" c7clsChunk hmk
    refine ⟨?_, h3.1, rfl, rfl⟩
    have hrepr : c7decoratedCls
        = Node.mk "decorated_definition" 0 20 0 2 ([c7decorator] ++ [c7cls]) := rfl
    have hname : getName c7clsSrc c7cls = .ok "C" := rfl
    have hinner : extractChildren c7clsSrc "m.py" (some "C") c7clsBlock.children = .ok [] := by
      have hother := extractChildren_other c7clsSrc "m.py" (some "C")
        (Node.mk "pass_statement" 16 20 2 2 []) [] (by decide) (by decide) (by decide)
      have hch : c7clsBlock.children = [Node.mk "pass_statement" 16 20 2 2 []] := rfl
      rw [hch, hother]
      simp only [Node.children, extractChildren_nil, exceptBind_ok]
      rfl
    rw [hrepr, h.2.1 c7clsBlock rfl rfl]
    simp only [hname, hmk, hinner, extractChildren_nil, exceptBind_ok]
    rfl

end CodeCompass

